import Mathlib

/-!
Shallow embedding of the lapptrack/appdownload product-synchronization
pipeline (src/appdownload/appdownload.py, src/appdownload/cots/makemkv.py,
src/appdownload/cots/dummy.py).

The catalog is a ConfigParser ini file: an ordered list of sections, each an
ordered list of key/value string pairs. The modules cots/core.py, cots/pad.py
and cots/semver.py are not part of the given sources; where their behaviour
is needed it is taken as a parameter or modelled from the spec, and marked so.
-/

namespace Lapptrack

/-- One ini section: ordered key/value pairs, as held by a ConfigParser. -/
abbrev IniSection := List (String × String)

/-- The catalog: ordered mapping from section name to section. -/
abbrev Catalog := List (String × IniSection)

/-- Key lookup in a section (ConfigParser stores at most one value per key). -/
def lookupKey (s : IniSection) (k : String) : Option String :=
  (s.find? (fun kv => kv.1 = k)).map (fun kv => kv.2)

/-- Section lookup in a catalog. -/
def lookupSection (cat : Catalog) (sn : String) : Option IniSection :=
  (cat.find? (fun e => e.1 = sn)).map (fun e => e.2)

/-- Lowercasing of a value, as str.lower does before the getboolean table
lookup (written over the character list so that it evaluates by reduction). -/
def lowerString (s : String) : String :=
  ⟨s.data.map Char.toLower⟩

/-- ConfigParser getboolean value conversion: the BOOLEAN_STATES table,
applied to the lowercased value; any other value raises ValueError. -/
def getboolean (v : String) : Option Bool :=
  let w := lowerString v
  if w = "1" ∨ w = "yes" ∨ w = "true" ∨ w = "on" then some true
  else if w = "0" ∨ w = "no" ∨ w = "false" ∨ w = "off" then some false
  else none

/-- Errors raised inside the pipeline (exceptions in the Python source). -/
inductive CotsError where
  | metadataUnavailable
  | metadataMalformed
  | fetchFailed
  | valueError (v : String)
  | keyError (k : String)
deriving DecidableEq, Repr

/-- The product object as read and written by AppDownload._load_product and
AppDownload._dump_product: the attributes of a cots.core.BaseProduct that the
orchestrator touches. The attribute set and names follow appdownload.py
(note the source reads and writes product.silent_inst_arg, without s). -/
structure ProductObj where
  id : String
  name : String
  version : String
  published : String
  target : String
  release_note : String
  installer : String
  std_inst_args : String
  silent_inst_arg : String
  update_available : Bool
  update_version : String
  update_published : String
deriving DecidableEq, Repr

/-- Catalog key names used by appdownload.py (_PROD_..._KEYNAME constants). -/
def nameK : String := "name"

def versionK : String := "version"

def publishedK : String := "published"

def targetK : String := "target"

def relNoteK : String := "release_note"

def installerK : String := "installer"

def stdArgsK : String := "std_inst_args"

def silentArgsK : String := "silent_inst_args"

def updAvailK : String := "update_available"

def updVersionK : String := "update_version"

def updPublishedK : String := "update_published"

/-- The eleven standard keys of a product section, in the order
AppDownload._dump_product writes them. -/
def standardKeys : List String :=
  [nameK, versionK, publishedK, targetK, relNoteK, installerK,
   stdArgsK, silentArgsK, updAvailK, updVersionK, updPublishedK]

/-- Set a field from an optional catalog value (the source pattern
if KEY in app_props: product.field = app_props[KEY]). -/
def setOpt (f : String → ProductObj → ProductObj) (o : Option String)
    (p : ProductObj) : ProductObj :=
  match o with
  | some v => f v p
  | none => p

/-- AppDownload._load_product restricted to an existing section s: sets
product.id, then each attribute whose key is present in the section, in
source order. The update_available key goes through getboolean, whose
ValueError aborts the load before update_version and update_published are
assigned, exactly as the exception would in the source. -/
def loadProduct (sn : String) (s : IniSection) (q : ProductObj) :
    Except CotsError ProductObj :=
  let p := { q with id := sn }
  let p := setOpt (fun v p => { p with name := v }) (lookupKey s nameK) p
  let p := setOpt (fun v p => { p with version := v }) (lookupKey s versionK) p
  let p := setOpt (fun v p => { p with published := v }) (lookupKey s publishedK) p
  let p := setOpt (fun v p => { p with target := v }) (lookupKey s targetK) p
  let p := setOpt (fun v p => { p with release_note := v }) (lookupKey s relNoteK) p
  let p := setOpt (fun v p => { p with installer := v }) (lookupKey s installerK) p
  let p := setOpt (fun v p => { p with std_inst_args := v }) (lookupKey s stdArgsK) p
  let p := setOpt (fun v p => { p with silent_inst_arg := v }) (lookupKey s silentArgsK) p
  match lookupKey s updAvailK with
  | none =>
      let p := setOpt (fun v p => { p with update_version := v }) (lookupKey s updVersionK) p
      let p := setOpt (fun v p => { p with update_published := v }) (lookupKey s updPublishedK) p
      Except.ok p
  | some v =>
      match getboolean v with
      | none => Except.error (CotsError.valueError v)
      | some b =>
          let p := { p with update_available := b }
          let p := setOpt (fun v p => { p with update_version := v }) (lookupKey s updVersionK) p
          let p := setOpt (fun v p => { p with update_published := v }) (lookupKey s updPublishedK) p
          Except.ok p

/-- AppDownload._load_product: if the section exists the attributes are read
from it, otherwise the product keeps its defaults and nothing happens. -/
def loadFromCatalog (cat : Catalog) (sn : String) (q : ProductObj) :
    Except CotsError ProductObj :=
  match lookupSection cat sn with
  | some s => loadProduct sn s q
  | none => Except.ok q

/-- The fresh section AppDownload._dump_product writes: the eleven standard
keys, in source order, with update_available serialized as yes or no. -/
def dumpSection (p : ProductObj) : IniSection :=
  [(nameK, p.name),
   (versionK, p.version),
   (publishedK, p.published),
   (targetK, p.target),
   (relNoteK, p.release_note),
   (installerK, p.installer),
   (stdArgsK, p.std_inst_args),
   (silentArgsK, p.silent_inst_arg),
   (updAvailK, if p.update_available then "yes" else "no"),
   (updVersionK, p.update_version),
   (updPublishedK, p.update_published)]

/-- AppDownload._dump_product: the section is removed if present (resetting
it to delete any obsolete keys; section names are unique in a ConfigParser,
so removing the section is filtering it out) and a fresh section holding
exactly the eleven standard keys is appended. -/
def dumpProduct (sn : String) (p : ProductObj) (cat : Catalog) : Catalog :=
  let cat' :=
    if cat.any (fun e => e.1 = sn) then cat.filter (fun e => ¬ e.1 = sn)
    else cat
  cat' ++ [(sn, dumpSection p)]

/-!
Model of cots/makemkv.py Product. The state keeps the attributes the module
reads and writes; the pending update (self.update) is an optional candidate.
cots/semver.py is absent from the sources, so the Version Ordering is a
parameter, as the spec treats it (an external ordering over version
strings). cots/pad.py is absent as well, so the parsed PAD document is
abstracted to the three find results the module extracts from it.
-/

/-- The update candidate held in self.update by makemkv check_update: a fresh
Product whose version, published and location have been set from the PAD
document (published and location may be None), later enriched by
fetch_update. -/
structure Candidate where
  version : String
  published : Option String
  location : Option String
  target : String
  release_note : String
  std_inst_args : String
  silent_inst_args : String
  product_code : String
  installer : String
deriving DecidableEq, Repr

/-- The makemkv Product state as touched by check_update and fetch_update. -/
structure MkvState where
  version : String
  published : Option String
  target : String
  release_note : String
  std_inst_args : String
  silent_inst_args : String
  installer : String
  update : Option Candidate
deriving DecidableEq, Repr

/-- Modelled from the spec: update_available of a cots.core.BaseProduct
(core.py is not among the sources) is true iff a pending update candidate is
recorded, per the spec invariant relating update_available to the pending
update fields. -/
def MkvState.update_available (st : MkvState) : Bool :=
  st.update.isSome

/-- The PAD document, abstracted to the three values makemkv extracts:
_get_version (Program_Info/Program_Version text), _get_release_date
(assembled from the release year/month/day items) and _get_location
(Primary_Download_URL text); each find may fail, giving None. -/
structure PadDoc where
  program_version : Option String
  release_date : Option String
  download_url : Option String
deriving DecidableEq, Repr

/-- Environment of one check_update call: the outcome of _temporary_retrieve
(core.py absent: a temporary local filename, or a network failure), the
outcome of self._parser.parse on the retrieved artifact (pad.py absent: a
parsed document, or a parser failure), and the Version Ordering ltv used for
semver.SemVer comparison (semver.py absent). -/
structure CheckEnv where
  retrieve : Except CotsError String
  parse : Except CotsError PadDoc
  ltv : String → String → Bool

/-- Resource trace of one check_update call: whether the temporary local
copy of the catalog was created, and whether it was released (os.unlink). -/
structure CheckTrace where
  tempCreated : Bool
  tempReleased : Bool
deriving DecidableEq, Repr

/-- cots/makemkv.py Product.check_update: retrieve the PAD catalog to a
temporary file, reset self.update to None, parse, and when a version was
extracted and the current version compares strictly below it record a fresh
candidate carrying version, release date and download location; finally
os.unlink the temporary file. An exception from the parser propagates
before the unlink line is reached. -/
def check_update (env : CheckEnv) (st : MkvState) :
    Except CotsError MkvState × CheckTrace :=
  match env.retrieve with
  | Except.error e => (Except.error e, ⟨false, false⟩)
  | Except.ok _ =>
      let st := { st with update := none }
      match env.parse with
      | Except.error e => (Except.error e, ⟨true, false⟩)
      | Except.ok pad =>
          match pad.program_version with
          | some v =>
              if env.ltv st.version v then
                let prod : Candidate :=
                  { version := v
                    published := pad.release_date
                    location := pad.download_url
                    target := ""
                    release_note := ""
                    std_inst_args := ""
                    silent_inst_args := ""
                    product_code := ""
                    installer := "" }
                (Except.ok { st with update := some prod }, ⟨true, true⟩)
              else
                (Except.ok st, ⟨true, true⟩)
          | none => (Except.ok st, ⟨true, true⟩)

/-- Environment of one fetch_update call: the outcome of _file_retrieve
(core.py absent: the local filename of the downloaded installer, or a
network failure) and the canonical installer name that _rename_installer
(core.py absent) gives the downloaded artifact. -/
structure FetchEnv where
  retrieve : Except CotsError String
  rename : String → String

/-- Modelled from the spec: the apply-update transition performed by
self.load(prod.dump()) in fetch_update (load and dump live in the absent
core.py). Per the spec, the candidate fields fully replace the
current-install fields and the pending-update fields are cleared. -/
def applyUpdate (st : MkvState) (prod : Candidate) : MkvState :=
  { version := prod.version
    published := prod.published
    target := prod.target
    release_note := prod.release_note
    std_inst_args := prod.std_inst_args
    silent_inst_args := prod.silent_inst_args
    installer := prod.installer
    update := none }

/-- cots/makemkv.py Product.fetch_update: when no candidate is pending the
call only logs No new version available and returns; otherwise the installer
is retrieved first (a failure there propagates before any assignment), then
the candidate is enriched (empty target, constant release note URL, empty
std args, /S silent args, renamed installer) and applied to the instance.
The result carries the post-call state, the call outcome, and whether a
network retrieval was attempted. -/
def fetch_update (env : FetchEnv) (st : MkvState) :
    MkvState × Except CotsError Unit × Bool :=
  match st.update with
  | none => (st, Except.ok (), false)
  | some prod =>
      match env.retrieve with
      | Except.error e => (st, Except.error e, true)
      | Except.ok local_filename =>
          let prod :=
            { prod with
              target := ""
              release_note := "http://www.makemkv.com/download/"
              std_inst_args := ""
              silent_inst_args := "/S"
              product_code := ""
              installer := env.rename local_filename }
          (applyUpdate st prod, Except.ok (), true)

/-!
Model of the orchestrator (AppDownload.run and its phases). Plugin modules
are loaded dynamically by importlib; the behaviour of a loaded plugin call
is therefore a parameter: checkOf (fetchOf) maps a product id and the loaded
product state to the outcome of app.check_update() (app.fetch_update(path)),
an updated state or a raised exception. The fresh app_mod.Product() instance
is the parameter d (its defaults live in the absent core.py). There is no
try/except around the per-product work in _check_update or _fetch_update, so
an exception propagates out of the whole phase.
-/

/-- AppDownload._check_update: iterate the applications section in
configuration order; for each enabled product, load it from the catalog,
run its check, and dump the result back into the catalog. Returns the
phase outcome together with the ids whose check was actually invoked. -/
def checkPhase (checkOf : String → ProductObj → Except CotsError ProductObj)
    (d : ProductObj) :
    List (String × Bool) → Catalog → Except CotsError Catalog × List String
  | [], cat => (Except.ok cat, [])
  | (app_id, enabled) :: rest, cat =>
      if enabled then
        match loadFromCatalog cat app_id d with
        | Except.error e => (Except.error e, [])
        | Except.ok p =>
            match checkOf app_id p with
            | Except.error e => (Except.error e, [app_id])
            | Except.ok p' =>
                let r := checkPhase checkOf d rest (dumpProduct app_id p' cat)
                (r.1, app_id :: r.2)
      else checkPhase checkOf d rest cat

/-- AppDownload._fetch_update: same traversal as the check phase, calling
app.fetch_update(path) (the store path computation is folded into the
abstract plugin outcome fetchOf). -/
def fetchPhase (fetchOf : String → ProductObj → Except CotsError ProductObj)
    (d : ProductObj) :
    List (String × Bool) → Catalog → Except CotsError Catalog × List String
  | [], cat => (Except.ok cat, [])
  | (app_id, enabled) :: rest, cat =>
      if enabled then
        match loadFromCatalog cat app_id d with
        | Except.error e => (Except.error e, [])
        | Except.ok p =>
            match fetchOf app_id p with
            | Except.error e => (Except.error e, [app_id])
            | Except.ok p' =>
                let r := fetchPhase fetchOf d rest (dumpProduct app_id p' cat)
                (r.1, app_id :: r.2)
      else fetchPhase fetchOf d rest cat

deriving instance DecidableEq for Except

/-- Observable outcome of AppDownload.run up to the catalog save: the run
outcome, the on-disk catalog after the run (the prior disk content when the
save line was never reached), the ids checked and fetched, and whether
_write_catalog was performed. -/
structure RunResult where
  result : Except CotsError Unit
  disk : Catalog
  checked : List String
  fetched : List String
  saved : Bool
deriving DecidableEq, Repr

/-- AppDownload.run, from _check_update to _write_catalog: the check phase,
then the fetch phase, then the catalog save. A per-product exception in
either phase propagates and aborts the run before the save, leaving the
on-disk catalog at disk0 (_write_applist, which follows the save, is
modelled separately). -/
def runFull (checkOf fetchOf : String → ProductObj → Except CotsError ProductObj)
    (d : ProductObj) (apps : List (String × Bool)) (cat0 disk0 : Catalog) :
    RunResult :=
  match checkPhase checkOf d apps cat0 with
  | (Except.error e, ids) => ⟨Except.error e, disk0, ids, [], false⟩
  | (Except.ok cat1, ids) =>
      match fetchPhase fetchOf d apps cat1 with
      | (Except.error e, fids) => ⟨Except.error e, disk0, ids, fids, false⟩
      | (Except.ok cat2, fids) => ⟨Except.ok (), cat2, ids, fids, true⟩

/-!
Model of AppDownload._write_catalog as the sequence of on-disk file states
it can leave behind: the file is opened with mode w+t, which truncates it in
place, then the header and each section are written in turn. No temporary
file or atomic replace is involved.
-/

/-- The warning header _write_catalog writes, with the timestamp filled. -/
def catalogHeader (ts : String) : String :=
  "# ------------------------------------------------------------------------------\n" ++
  "# This file is automatically generated on " ++ ts ++ ",\n" ++
  "# and must not be manually modified.\n" ++
  "# It contains the applications database and specifies for each application the\n" ++
  "# following properties. Appdownload script uses this database to build the\n" ++
  "# applist files used by appdeploy script.\n" ++
  "# ------------------------------------------------------------------------------\n"

/-- One section as ConfigParser.write renders it. -/
def renderSection (sn : String) (s : IniSection) : String :=
  "[" ++ sn ++ "]\n" ++
  String.join (s.map (fun kv => kv.1 ++ " = " ++ kv.2 ++ "\n")) ++ "\n"

/-- The complete new catalog file content. -/
def renderCatalog (ts : String) (cat : Catalog) : String :=
  catalogHeader ts ++ String.join (cat.map (fun e => renderSection e.1 e.2))

/-- File contents after each successive write, starting from acc. -/
def writeStates (acc : String) : List String → List String
  | [] => []
  | p :: ps => (acc ++ p) :: writeStates (acc ++ p) ps

/-- The on-disk catalog states AppDownload._write_catalog goes through: the
prior content, the empty file left by the truncating open, then the content
after the header write and after each section write. -/
def writeCatalogTrace (ts : String) (cat : Catalog) (old : String) :
    List String :=
  old :: "" ::
    writeStates "" (catalogHeader ts :: cat.map (fun e => renderSection e.1 e.2))

/-!
Model of AppDownload._write_applist. The applist line for a product is built
from its catalog section by direct indexing, so a missing section or key
raises a KeyError; there is no per-product try/except, so such an error
aborts the whole pass. Output files are keyed by component name, opened
lazily with a generated header on first write.
-/

/-- Per-product configuration used by the export: the id, the enabled flag
from the applications section, and the declared set name. -/
structure AppCfg where
  id : String
  enabled : Bool
  set_name : String
deriving DecidableEq, Repr

/-- One open applist output file: its component key, its file name, and the
chunks written to it so far, in order. -/
structure FileEnt where
  comp : String
  fname : String
  chunks : List String
deriving DecidableEq, Repr

/-- The lazily opened applist files, in open order (self._app_set_file). -/
abbrev Files := List FileEnt

/-- The applist file name: _APPLIST_PREFIX + component + _APPLIST_EXT,
joined under the store path. -/
def applistFilename (store comp : String) : String :=
  store ++ "/" ++ "applist-" ++ comp ++ ".txt"

/-- The header written on creation of an applist file. -/
def applistHeader (ts comp : String) : String :=
  "# ------------------------------------------------------------------------------\n" ++
  "# This applist file generated on " ++ ts ++ " for " ++ comp ++ ".\n" ++
  "# This file is automatically generated, and must not be manually modified.\n" ++
  "# Please modify the configuration file instead (appdowload.ini by default).\n" ++
  "# ------------------------------------------------------------------------------\n"

/-- Splitting helper: str.split with a comma separator, over the character
list (written so that it evaluates by reduction). -/
def splitCommaAux : List Char → List Char → List String
  | [], acc => [String.mk acc.reverse]
  | ch :: rest, acc =>
      if ch = ',' then String.mk acc.reverse :: splitCommaAux rest []
      else splitCommaAux rest (ch :: acc)

/-- str.split(",") as the source applies it to the component list of a set. -/
def splitComma (s : String) : List String :=
  splitCommaAux s.data []

/-- str.strip: remove leading and trailing whitespace (written over the
character list so that it evaluates by reduction). -/
def stripString (s : String) : String :=
  String.mk
    (((s.data.dropWhile Char.isWhitespace).reverse.dropWhile
        Char.isWhitespace).reverse)

/-- The catalog line for one product: target, name, version, installer and
silent install arguments, field-separated, read in that order by direct
indexing (first missing key raises). -/
def applistLine (s : IniSection) : Except CotsError String :=
  match lookupKey s targetK with
  | none => Except.error (CotsError.keyError targetK)
  | some tgt =>
      match lookupKey s nameK with
      | none => Except.error (CotsError.keyError nameK)
      | some nm =>
          match lookupKey s versionK with
          | none => Except.error (CotsError.keyError versionK)
          | some ver =>
              match lookupKey s installerK with
              | none => Except.error (CotsError.keyError installerK)
              | some inst =>
                  match lookupKey s silentArgsK with
                  | none => Except.error (CotsError.keyError silentArgsK)
                  | some sil =>
                      Except.ok
                        (tgt ++ ";" ++ nm ++ ";" ++ ver ++ ";" ++ inst ++ ";" ++ sil)

/-- Build the applist line of a product from the catalog (self._catalog[app_id]
raises a KeyError when the section is absent). -/
def buildLine (cat : Catalog) (app_id : String) : Except CotsError String :=
  match lookupSection cat app_id with
  | none => Except.error (CotsError.keyError app_id)
  | some s => applistLine s

/-- Write one line to one component file: append to the file already keyed
by this component, or open it lazily, write the generated header, then the
line. Each written line ends with a newline. -/
def writeComp (store ts : String) (fs : Files) (comp line : String) : Files :=
  if fs.any (fun e => e.comp = comp) then
    fs.map (fun e =>
      if e.comp = comp then { e with chunks := e.chunks ++ [line ++ "\n"] } else e)
  else
    fs ++ [⟨comp, applistFilename store comp,
           [applistHeader ts comp, line ++ "\n"]⟩]

/-- The loop over the components of a set: each component name is stripped before
keying and writing. -/
def writeComps (store ts : String) (comps : List String) (line : String)
    (fs : Files) : Files :=
  comps.foldl (fun fs c => writeComp store ts fs (stripString c) line) fs

/-- The product loop of AppDownload._write_applist: for each enabled
product, build its line (a KeyError here aborts the whole pass with no line
written for this product), look up the component list of its set in the sets
section, split it on commas, and write the line to every component file. -/
def runApplist (sets : IniSection) (cat : Catalog) (store ts : String) :
    List AppCfg → Files → Files × Option CotsError
  | [], fs => (fs, none)
  | a :: rest, fs =>
      if a.enabled then
        match buildLine cat a.id with
        | Except.error e => (fs, some e)
        | Except.ok line =>
            match lookupKey sets a.set_name with
            | none => (fs, some (CotsError.keyError a.set_name))
            | some comps =>
                runApplist sets cat store ts rest
                  (writeComps store ts (splitComma comps) line fs)
      else runApplist sets cat store ts rest fs

/-- AppDownload._write_applist, from an empty file map. -/
def writeApplist (apps : List AppCfg) (sets : IniSection) (cat : Catalog)
    (store ts : String) : Files × Option CotsError :=
  runApplist sets cat store ts apps []

/-!
Theorems.
-/

/-- A product object with every attribute at a blank default, used as the
fresh plugin instance in concrete scenarios. -/
def blankProduct : ProductObj :=
  ⟨"", "", "", "", "", "", "", "", "", false, "", ""⟩

theorem lookupSection_append_last (cat' : Catalog) (sn : String)
    (s : IniSection) (h : ∀ e ∈ cat', ¬ e.1 = sn) :
    lookupSection (cat' ++ [(sn, s)]) sn = some s := by
  unfold lookupSection
  rw [List.find?_append]
  have hnone : cat'.find? (fun e => e.1 = sn) = none :=
    List.find?_eq_none.mpr (by intro x hx; simpa using h x hx)
  simp [hnone]

theorem lookupSection_dumpProduct (sn : String) (p : ProductObj)
    (cat : Catalog) :
    lookupSection (dumpProduct sn p cat) sn = some (dumpSection p) := by
  unfold dumpProduct
  by_cases h : cat.any (fun e => e.1 = sn) = true
  · rw [if_pos h]
    refine lookupSection_append_last _ sn _ ?_
    intro e he
    have h2 := (List.mem_filter.mp he).2
    simpa using h2
  · rw [if_neg h]
    refine lookupSection_append_last _ sn _ ?_
    intro e he he2
    exact h (List.any_eq_true.mpr ⟨e, he, by simp [he2]⟩)

/-- Claim C10: dumping a product object into the catalog under a section id
leaves that section containing exactly the eleven standard keys, in dump
order, with values taken from the product, the boolean update_available
serialized as yes or no; any keys previously present in the section and not
in this list are gone, since the whole section is replaced. -/
theorem C10_dump_section (sn : String) (p : ProductObj) (cat : Catalog) :
    lookupSection (dumpProduct sn p cat) sn = some (dumpSection p) ∧
    (dumpSection p).map (fun kv => kv.1) = standardKeys ∧
    lookupKey (dumpSection p) updAvailK =
      some (if p.update_available then "yes" else "no") := by
  refine ⟨lookupSection_dumpProduct sn p cat, rfl, ?_⟩
  rfl

/-- The concrete catalog section used against claim C3: it holds the eleven
standard keys, but stores update_available as true, one of the spellings
ConfigParser getboolean accepts. -/
def c3rec : IniSection :=
  [(nameK, "App One"), (versionK, "1.0"), (publishedK, "2016-01-01"),
   (targetK, "x86"), (relNoteK, "http://example.com/rn"),
   (installerK, "app1.exe"), (stdArgsK, ""), (silentArgsK, "/S"),
   (updAvailK, "true"), (updVersionK, "1.1"), (updPublishedK, "2016-02-01")]

/-- Claim C3 counterexample: on a catalog section holding the eleven
standard keys with update_available stored as true, the load succeeds but
the dumped section stores update_available as yes, so dump of load is not
the identity field-for-field on all such sections. -/
theorem C3_counterexample :
    (∀ k ∈ standardKeys, (lookupKey c3rec k).isSome) ∧
    (loadProduct "app1" c3rec blankProduct).map dumpSection ≠
      Except.ok c3rec ∧
    lookupKey c3rec updAvailK = some "true" ∧
    (loadProduct "app1" c3rec blankProduct).map
        (fun p => lookupKey (dumpSection p) updAvailK) =
      Except.ok (some "yes") := by
  decide

/-- Claim C3 (amended): for every catalog section holding the eleven
standard keys whose update_available value is the canonical yes or no that
dump itself writes, loading the section and dumping the loaded product gives
back the section field-for-field. -/
theorem C3_amended (sn : String) (q : ProductObj) (r : IniSection)
    (n v pub tgt rn inst sa sl ua uv up : String)
    (h1 : lookupKey r nameK = some n)
    (h2 : lookupKey r versionK = some v)
    (h3 : lookupKey r publishedK = some pub)
    (h4 : lookupKey r targetK = some tgt)
    (h5 : lookupKey r relNoteK = some rn)
    (h6 : lookupKey r installerK = some inst)
    (h7 : lookupKey r stdArgsK = some sa)
    (h8 : lookupKey r silentArgsK = some sl)
    (h9 : lookupKey r updAvailK = some ua)
    (h10 : lookupKey r updVersionK = some uv)
    (h11 : lookupKey r updPublishedK = some up)
    (hua : ua = "yes" ∨ ua = "no") :
    ∃ p, loadProduct sn r q = Except.ok p ∧
      ∀ k ∈ standardKeys, lookupKey (dumpSection p) k = lookupKey r k := by
  rcases hua with hua | hua <;> subst hua
  · refine ⟨⟨sn, n, v, pub, tgt, rn, inst, sa, sl, true, uv, up⟩, ?_, ?_⟩
    · simp only [loadProduct, setOpt, h1, h2, h3, h4, h5, h6, h7, h8, h9,
        h10, h11]
      rfl
    · intro k hk
      fin_cases hk <;>
        · simp only [h1, h2, h3, h4, h5, h6, h7, h8, h9, h10, h11]
          rfl
  · refine ⟨⟨sn, n, v, pub, tgt, rn, inst, sa, sl, false, uv, up⟩, ?_, ?_⟩
    · simp only [loadProduct, setOpt, h1, h2, h3, h4, h5, h6, h7, h8, h9,
        h10, h11]
      rfl
    · intro k hk
      fin_cases hk <;>
        · simp only [h1, h2, h3, h4, h5, h6, h7, h8, h9, h10, h11]
          rfl

/-- The c3rec section with update_available stored canonically as yes. -/
def c3recOk : IniSection :=
  [(nameK, "App One"), (versionK, "1.0"), (publishedK, "2016-01-01"),
   (targetK, "x86"), (relNoteK, "http://example.com/rn"),
   (installerK, "app1.exe"), (stdArgsK, ""), (silentArgsK, "/S"),
   (updAvailK, "yes"), (updVersionK, "1.1"), (updPublishedK, "2016-02-01")]

/-- Witness for the amended claim C3 at a concrete section. -/
theorem C3_amended_witness :
    ∃ p, loadProduct "app1" c3recOk blankProduct = Except.ok p ∧
      ∀ k ∈ standardKeys, lookupKey (dumpSection p) k = lookupKey c3recOk k :=
  C3_amended "app1" blankProduct c3recOk
    "App One" "1.0" "2016-01-01" "x86" "http://example.com/rn" "app1.exe"
    "" "/S" "yes" "1.1" "2016-02-01"
    (by decide) (by decide) (by decide) (by decide) (by decide) (by decide)
    (by decide) (by decide) (by decide) (by decide) (by decide)
    (Or.inl rfl)

/-- Claim C4: when a pending update is recorded and the network retrieval of
fetch_update fails, the call raises and leaves the product untouched: every
current-install field equals its pre-call value, the pending candidate is
still recorded with the same fields, and update_available remains true, so a
retry is possible on the next run. -/
theorem C4_fetch_atomic (env : FetchEnv) (st : MkvState) (c : Candidate)
    (e : CotsError) (hupd : st.update = some c)
    (hret : env.retrieve = Except.error e) :
    fetch_update env st = (st, Except.error e, true) ∧
    (fetch_update env st).1.update = some c ∧
    (fetch_update env st).1.update_available = true := by
  have hfu : fetch_update env st = (st, Except.error e, true) := by
    unfold fetch_update
    rw [hupd, hret]
  refine ⟨hfu, ?_, ?_⟩
  · rw [hfu]; exact hupd
  · rw [hfu]; simp [MkvState.update_available, hupd]

/-- A concrete pending candidate for witnesses. -/
def wCand : Candidate :=
  ⟨"1.2.0", some "2024-03-01", some "http://example.com/dl", "", "", "", "",
   "", ""⟩

/-- A concrete product state with a pending update for witnesses. -/
def wStPending : MkvState :=
  ⟨"1.0.0", some "2023-01-01", "unified", "rn", "", "/S", "old.exe",
   some wCand⟩

/-- The fetch environment whose retrieval fails, for the C4 witness. -/
def wFetchFail : FetchEnv :=
  ⟨Except.error CotsError.fetchFailed, fun s => s⟩

/-- Witness for claim C4 at a concrete failing fetch. -/
theorem C4_fetch_atomic_witness :
    fetch_update wFetchFail wStPending =
      (wStPending, Except.error CotsError.fetchFailed, true) ∧
    (fetch_update wFetchFail wStPending).1.update = some wCand ∧
    (fetch_update wFetchFail wStPending).1.update_available = true :=
  C4_fetch_atomic wFetchFail wStPending wCand CotsError.fetchFailed rfl rfl

/-- Claim C6: when no prior check recorded a candidate, fetch_update is a
no-op reporting that there is nothing to fetch: no retrieval is attempted,
the state is unchanged, and the call is not an error. -/
theorem C6_fetch_noop (env : FetchEnv) (st : MkvState)
    (hupd : st.update = none) :
    fetch_update env st = (st, Except.ok (), false) := by
  unfold fetch_update
  rw [hupd]

/-- A concrete product state with no pending update for the C6 witness. -/
def wStIdle : MkvState :=
  ⟨"1.0.0", some "2023-01-01", "unified", "rn", "", "/S", "old.exe", none⟩

/-- Witness for claim C6 at a concrete state with no pending update. -/
theorem C6_fetch_noop_witness :
    fetch_update wFetchFail wStIdle = (wStIdle, Except.ok (), false) :=
  C6_fetch_noop wFetchFail wStIdle rfl

/-- Evaluation of check_update when retrieval and parse succeed but no
version could be extracted from the PAD document. -/
theorem check_update_ok_none (env : CheckEnv) (st : MkvState) (f : String)
    (pad : PadDoc) (hret : env.retrieve = Except.ok f)
    (hparse : env.parse = Except.ok pad)
    (hv : pad.program_version = none) :
    check_update env st =
      (Except.ok { st with update := none }, ⟨true, true⟩) := by
  simp only [check_update, hret, hparse, hv]

/-- Evaluation of check_update when retrieval and parse succeed and the
extracted version is strictly newer than the current one. -/
theorem check_update_ok_lt (env : CheckEnv) (st : MkvState) (f : String)
    (pad : PadDoc) (v : String) (hret : env.retrieve = Except.ok f)
    (hparse : env.parse = Except.ok pad)
    (hv : pad.program_version = some v)
    (hlt : env.ltv st.version v = true) :
    check_update env st =
      (Except.ok
        { st with update := some (Candidate.mk v pad.release_date pad.download_url "" "" "" "" "" "") },
       ⟨true, true⟩) := by
  simp only [check_update, hret, hparse, hv]
  rw [if_pos hlt]

/-- Evaluation of check_update when retrieval and parse succeed and the
extracted version is not strictly newer than the current one. -/
theorem check_update_ok_ge (env : CheckEnv) (st : MkvState) (f : String)
    (pad : PadDoc) (v : String) (hret : env.retrieve = Except.ok f)
    (hparse : env.parse = Except.ok pad)
    (hv : pad.program_version = some v)
    (hlt : env.ltv st.version v = false) :
    check_update env st =
      (Except.ok { st with update := none }, ⟨true, true⟩) := by
  simp only [check_update, hret, hparse, hv]
  rw [if_neg (by simp [hlt])]

/-- Claim C5: whenever check_update completes normally (artifact retrieved
and parsed), the resulting state records a populated candidate iff the
extracted version compares strictly greater than the current version under
the Version Ordering; any recorded candidate carries exactly the extracted
version, and the stored current version never changes, so no version
regresses when no update is recorded. -/
theorem C5_check_monotone (env : CheckEnv) (st : MkvState) (f : String)
    (pad : PadDoc) (hret : env.retrieve = Except.ok f)
    (hparse : env.parse = Except.ok pad) :
    ∃ st', check_update env st = (Except.ok st', ⟨true, true⟩) ∧
      st'.version = st.version ∧
      (∀ c, st'.update = some c →
        pad.program_version = some c.version ∧
        env.ltv st.version c.version = true) ∧
      (∀ v, pad.program_version = some v →
        (st'.update.isSome = true ↔ env.ltv st.version v = true)) ∧
      (pad.program_version = none → st'.update = none) := by
  cases hv : pad.program_version with
  | none =>
      rw [check_update_ok_none env st f pad hret hparse hv]
      refine ⟨{ st with update := none }, rfl, rfl, ?_, ?_, fun _ => rfl⟩
      · intro c hc
        simp at hc
      · intro v' hv'
        simp at hv'
  | some v =>
      by_cases hlt : env.ltv st.version v = true
      · rw [check_update_ok_lt env st f pad v hret hparse hv hlt]
        refine ⟨_, rfl, rfl, ?_, ?_, by simp⟩
        · intro c hc
          simp only [Option.some.injEq] at hc
          subst hc
          exact ⟨rfl, hlt⟩
        · intro v' hv'
          simp only [Option.some.injEq] at hv'
          subst hv'
          simp [hlt]
      · have hlt0 : env.ltv st.version v = false := by
          simpa using hlt
        rw [check_update_ok_ge env st f pad v hret hparse hv hlt0]
        refine ⟨_, rfl, rfl, ?_, ?_, by simp⟩
        · intro c hc
          simp at hc
        · intro v' hv'
          simp only [Option.some.injEq] at hv'
          subst hv'
          simp [hlt0]

/-- A concrete check environment for the C5 witness: retrieval and parse
succeed, the PAD document carries version 1.2.0, and the Version Ordering
compares version strings lexicographically. -/
def wCheckEnv : CheckEnv :=
  ⟨Except.ok "/tmp/makemkv.xml",
   Except.ok ⟨some "1.2.0", some "2024-03-01", some "http://example.com/dl"⟩,
   fun a b => decide (a < b)⟩

/-- Witness for claim C5 at a concrete successful check. -/
theorem C5_check_monotone_witness :
    ∃ st', check_update wCheckEnv wStIdle = (Except.ok st', ⟨true, true⟩) ∧
      st'.version = wStIdle.version ∧
      (∀ c, st'.update = some c →
        (some "1.2.0" : Option String) = some c.version ∧
        wCheckEnv.ltv wStIdle.version c.version = true) ∧
      (∀ v, (some "1.2.0" : Option String) = some v →
        (st'.update.isSome = true ↔ wCheckEnv.ltv wStIdle.version v = true)) ∧
      ((some "1.2.0" : Option String) = none → st'.update = none) :=
  C5_check_monotone wCheckEnv wStIdle "/tmp/makemkv.xml"
    ⟨some "1.2.0", some "2024-03-01", some "http://example.com/dl"⟩ rfl rfl

/-- The check environment against claim C7: retrieval succeeds, but the
parser raises on the retrieved artifact. -/
def c7Env : CheckEnv :=
  ⟨Except.ok "/tmp/makemkv.xml", Except.error CotsError.metadataMalformed,
   fun a b => decide (a < b)⟩

/-- Claim C7 counterexample: when the parser fails, check_update propagates
the error and the temporary local copy of the metadata artifact, although
created, is never released: os.unlink sits after the parse call with no
try/finally around it. -/
theorem C7_counterexample :
    (check_update c7Env wStIdle).2 = ⟨true, false⟩ ∧
    (check_update c7Env wStIdle).1 =
      Except.error CotsError.metadataMalformed := by
  constructor
  · rfl
  · rfl

/-- Claim C7 (amended): on every normally completing execution of
check_update the temporary copy is released regardless of whether an update
was found, but when the metadata parser raises, the error propagates before
the unlink line and the temporary copy is not released. -/
theorem C7_amended (env : CheckEnv) (st : MkvState) (f : String)
    (hret : env.retrieve = Except.ok f) :
    (∀ pad, env.parse = Except.ok pad →
      (check_update env st).2 = ⟨true, true⟩) ∧
    (∀ e, env.parse = Except.error e →
      (check_update env st).2 = ⟨true, false⟩ ∧
      (check_update env st).1 = Except.error e) := by
  constructor
  · intro pad hpad
    cases hv : pad.program_version with
    | none => rw [check_update_ok_none env st f pad hret hpad hv]
    | some v =>
        by_cases hlt : env.ltv st.version v = true
        · rw [check_update_ok_lt env st f pad v hret hpad hv hlt]
        · rw [check_update_ok_ge env st f pad v hret hpad hv
            (by simpa using hlt)]
  · intro e he
    simp [check_update, hret, he]

/-- Witness for the amended claim C7 at a concrete environment. -/
theorem C7_amended_witness :
    (∀ pad, wCheckEnv.parse = Except.ok pad →
      (check_update wCheckEnv wStIdle).2 = ⟨true, true⟩) ∧
    (∀ e, wCheckEnv.parse = Except.error e →
      (check_update wCheckEnv wStIdle).2 = ⟨true, false⟩ ∧
      (check_update wCheckEnv wStIdle).1 = Except.error e) :=
  C7_amended wCheckEnv wStIdle "/tmp/makemkv.xml" rfl

/-- The catalog against claim C8: the record of app1 misses the target key
(a product record that was never populated), app2 is fully populated. -/
def c8Cat : Catalog :=
  [("app1", [(nameK, "App One")]),
   ("app2", [(targetK, "x86"), (nameK, "App Two"), (versionK, "2.0"),
             (installerK, "app2.exe"), (silentArgsK, "/S")])]

/-- Two enabled products in the same set, for claim C8. -/
def c8Apps : List AppCfg :=
  [⟨"app1", true, "web"⟩, ⟨"app2", true, "web"⟩]

/-- The sets section mapping the web set to one component, for claim C8. -/
def c8Sets : IniSection := [("web", "c1")]

/-- Claim C8 counterexample: with app1 missing its target field and app2
fully populated, the export pass stops at app1 with the key error: no file
is written at all, so the fully populated app2 line is not exported, while
the claim demands the pass continue with the remaining products. -/
theorem C8_counterexample :
    writeApplist c8Apps c8Sets c8Cat "/store" "2016-01-01T00:00:00" =
      ([], some (CotsError.keyError targetK)) ∧
    buildLine c8Cat "app2" = Except.ok "x86;App Two;2.0;app2.exe;/S" := by
  decide

/-- Claim C8 (amended): a missing export field is not caught per product:
the export pass aborts at the first enabled product whose record lacks a
required key — the line of that product is not written, the open files are left
as they were, and the remaining products are not exported at all. -/
theorem C8_amended (sets : IniSection) (cat : Catalog) (store ts : String)
    (a : AppCfg) (rest : List AppCfg) (fs : Files) (e : CotsError)
    (hen : a.enabled = true) (herr : buildLine cat a.id = Except.error e) :
    runApplist sets cat store ts (a :: rest) fs = (fs, some e) := by
  simp [runApplist, hen, herr]

/-- Witness for the amended claim C8 at a concrete configuration. -/
theorem C8_amended_witness :
    runApplist c8Sets c8Cat "/store" "2016-01-01T00:00:00"
        [⟨"app1", true, "web"⟩, ⟨"app2", true, "web"⟩] [] =
      ([], some (CotsError.keyError targetK)) :=
  C8_amended c8Sets c8Cat "/store" "2016-01-01T00:00:00"
    ⟨"app1", true, "web"⟩ [⟨"app2", true, "web"⟩] []
    (CotsError.keyError targetK) rfl (by decide)

/-- Claim C9: two enabled products declared in the same set, whose set maps
to the two components c1 and c2, are exported into both component files;
each file is created lazily on first write with its generated header and
name, and carries the two product lines in product-configuration order. -/
theorem C9_export_grouping
    (sets : IniSection) (cat : Catalog) (store ts : String)
    (id1 id2 sname compsStr r1 r2 c1 c2 l1 l2 : String)
    (hsets : lookupKey sets sname = some compsStr)
    (hsplit : splitComma compsStr = [r1, r2])
    (ht1 : stripString r1 = c1) (ht2 : stripString r2 = c2) (hne : c1 ≠ c2)
    (hl1 : buildLine cat id1 = Except.ok l1)
    (hl2 : buildLine cat id2 = Except.ok l2) :
    writeApplist [⟨id1, true, sname⟩, ⟨id2, true, sname⟩] sets cat store ts =
      ([⟨c1, applistFilename store c1,
          [applistHeader ts c1, l1 ++ "\n", l2 ++ "\n"]⟩,
        ⟨c2, applistFilename store c2,
          [applistHeader ts c2, l1 ++ "\n", l2 ++ "\n"]⟩],
       none) := by
  have hne' : c2 ≠ c1 := Ne.symm hne
  simp [writeApplist, runApplist, writeComps, writeComp, hsets, hsplit,
    ht1, ht2, hne, hne', hl1, hl2]

/-- The catalog for the C9 witness: two fully populated records. -/
def c9Cat : Catalog :=
  [("app1", [(targetK, "x86"), (nameK, "App One"), (versionK, "1.0"),
             (installerK, "app1.exe"), (silentArgsK, "/S")]),
   ("app2", [(targetK, "x64"), (nameK, "App Two"), (versionK, "2.0"),
             (installerK, "app2.exe"), (silentArgsK, "/quiet")])]

/-- The sets section for the C9 witness: the web set has two components. -/
def c9Sets : IniSection := [("web", "office, dev")]

/-- Witness for claim C9 at a concrete two-product, two-component export. -/
theorem C9_export_grouping_witness :
    writeApplist [⟨"app1", true, "web"⟩, ⟨"app2", true, "web"⟩] c9Sets c9Cat
        "/store" "2016-01-01T00:00:00" =
      ([⟨"office", applistFilename "/store" "office",
          [applistHeader "2016-01-01T00:00:00" "office",
           "x86;App One;1.0;app1.exe;/S" ++ "\n",
           "x64;App Two;2.0;app2.exe;/quiet" ++ "\n"]⟩,
        ⟨"dev", applistFilename "/store" "dev",
          [applistHeader "2016-01-01T00:00:00" "dev",
           "x86;App One;1.0;app1.exe;/S" ++ "\n",
           "x64;App Two;2.0;app2.exe;/quiet" ++ "\n"]⟩],
       none) :=
  C9_export_grouping c9Sets c9Cat "/store" "2016-01-01T00:00:00"
    "app1" "app2" "web" "office, dev" "office" " dev" "office" "dev"
    "x86;App One;1.0;app1.exe;/S" "x64;App Two;2.0;app2.exe;/quiet"
    rfl (by decide) (by decide) (by decide) (by decide) (by decide)
    (by decide)

theorem checkPhase_cons_false
    (co : String → ProductObj → Except CotsError ProductObj)
    (d : ProductObj) (app_id : String) (rest : List (String × Bool))
    (cat : Catalog) :
    checkPhase co d ((app_id, false) :: rest) cat =
      checkPhase co d rest cat := by
  simp [checkPhase]

theorem checkPhase_cons_true_loadErr
    (co : String → ProductObj → Except CotsError ProductObj)
    (d : ProductObj) (app_id : String) (rest : List (String × Bool))
    (cat : Catalog) (e : CotsError)
    (h : loadFromCatalog cat app_id d = Except.error e) :
    checkPhase co d ((app_id, true) :: rest) cat = (Except.error e, []) := by
  simp [checkPhase, h]

theorem checkPhase_cons_true_checkErr
    (co : String → ProductObj → Except CotsError ProductObj)
    (d : ProductObj) (app_id : String) (rest : List (String × Bool))
    (cat : Catalog) (p : ProductObj) (e : CotsError)
    (hl : loadFromCatalog cat app_id d = Except.ok p)
    (hc : co app_id p = Except.error e) :
    checkPhase co d ((app_id, true) :: rest) cat =
      (Except.error e, [app_id]) := by
  simp [checkPhase, hl, hc]

theorem checkPhase_cons_true_ok
    (co : String → ProductObj → Except CotsError ProductObj)
    (d : ProductObj) (app_id : String) (rest : List (String × Bool))
    (cat : Catalog) (p p' : ProductObj)
    (hl : loadFromCatalog cat app_id d = Except.ok p)
    (hc : co app_id p = Except.ok p') :
    checkPhase co d ((app_id, true) :: rest) cat =
      ((checkPhase co d rest (dumpProduct app_id p' cat)).1,
       app_id :: (checkPhase co d rest (dumpProduct app_id p' cat)).2) := by
  simp [checkPhase, hl, hc]

/-- When every enabled product before k checks successfully and the check of
the enabled product k raises, the whole check phase raises, having checked
exactly the prefix products and k, and no product after k. -/
theorem checkPhase_abort
    (co : String → ProductObj → Except CotsError ProductObj)
    (d : ProductObj) (pre post : List (String × Bool)) (k : String)
    (cat0 cat1 : Catalog) (ids : List String) (p : ProductObj)
    (e : CotsError)
    (hpre : checkPhase co d pre cat0 = (Except.ok cat1, ids))
    (hload : loadFromCatalog cat1 k d = Except.ok p)
    (hk : co k p = Except.error e) :
    checkPhase co d (pre ++ (k, true) :: post) cat0 =
      (Except.error e, ids ++ [k]) := by
  induction pre generalizing cat0 ids with
  | nil =>
      simp only [checkPhase, Prod.mk.injEq, Except.ok.injEq] at hpre
      obtain ⟨h1, h2⟩ := hpre
      subst h1
      subst h2
      simpa using checkPhase_cons_true_checkErr co d k post cat0 p e hload hk
  | cons hd tl ih =>
      obtain ⟨app_id, en⟩ := hd
      cases en with
      | false =>
          rw [List.cons_append, checkPhase_cons_false]
          rw [checkPhase_cons_false] at hpre
          exact ih cat0 ids hpre
      | true =>
          cases hl : loadFromCatalog cat0 app_id d with
          | error e' =>
              rw [checkPhase_cons_true_loadErr co d app_id tl cat0 e' hl]
                at hpre
              simp at hpre
          | ok q =>
              cases hc : co app_id q with
              | error e' =>
                  rw [checkPhase_cons_true_checkErr co d app_id tl cat0 q e'
                    hl hc] at hpre
                  simp at hpre
              | ok q' =>
                  rw [checkPhase_cons_true_ok co d app_id tl cat0 q q' hl hc]
                    at hpre
                  have hfst := congrArg Prod.fst hpre
                  have hsnd := congrArg Prod.snd hpre
                  simp only [] at hfst hsnd
                  have hr : checkPhase co d tl (dumpProduct app_id q' cat0) =
                      (Except.ok cat1,
                       (checkPhase co d tl (dumpProduct app_id q' cat0)).2) := by
                    rw [← hfst]
                  rw [List.cons_append,
                    checkPhase_cons_true_ok co d app_id
                      (tl ++ (k, true) :: post) cat0 q q' hl hc,
                    ih (dumpProduct app_id q' cat0)
                      (checkPhase co d tl (dumpProduct app_id q' cat0)).2 hr]
                  rw [← hsnd]
                  simp

/-- Claim C1 counterexample: two enabled products, alpha then beta, both
with prior catalog records; the check of alpha raises MetadataUnavailable.
The run aborts at alpha: beta is never checked, nothing is fetched, and the
final catalog save is never performed (the on-disk catalog is left at the
prior state only because the whole run stopped), while the claim demands
that beta still be processed and the save still happen. -/
def c1Check : String → ProductObj → Except CotsError ProductObj :=
  fun app_id p =>
    if app_id = "alpha" then Except.error CotsError.metadataUnavailable
    else Except.ok p

/-- The fetch outcome used in the C1 scenario: every fetch succeeds without
changing the product. -/
def c1Fetch : String → ProductObj → Except CotsError ProductObj :=
  fun _ p => Except.ok p

/-- The prior catalog of the C1 scenario: records for alpha and beta. -/
def c1Cat : Catalog :=
  [("alpha", [(nameK, "Alpha"), (versionK, "1.0")]),
   ("beta", [(nameK, "Beta"), (versionK, "2.0")])]

/-- Claim C1 counterexample (see c1Check): the run result is the propagated
error, only alpha was checked, nothing was fetched, and the save never
happened. -/
theorem C1_counterexample :
    runFull c1Check c1Fetch blankProduct [("alpha", true), ("beta", true)]
        c1Cat c1Cat =
      ⟨Except.error CotsError.metadataUnavailable, c1Cat, ["alpha"], [],
       false⟩ := by
  decide

/-- Claim C1 (amended): a per-product check error is not caught by the
orchestrator: when the enabled product k raises while every enabled product
before it checked successfully, the full run aborts at k with that error —
the products after k are never processed, the fetch phase never runs, the
final catalog save is not performed, and the on-disk catalog keeps the
prior run state for every product, k included. -/
theorem C1_amended
    (co fo : String → ProductObj → Except CotsError ProductObj)
    (d : ProductObj) (pre post : List (String × Bool)) (k : String)
    (cat0 disk0 cat1 : Catalog) (ids : List String) (p : ProductObj)
    (e : CotsError)
    (hpre : checkPhase co d pre cat0 = (Except.ok cat1, ids))
    (hload : loadFromCatalog cat1 k d = Except.ok p)
    (hk : co k p = Except.error e) :
    runFull co fo d (pre ++ (k, true) :: post) cat0 disk0 =
      ⟨Except.error e, disk0, ids ++ [k], [], false⟩ := by
  unfold runFull
  rw [checkPhase_abort co d pre post k cat0 cat1 ids p e hpre hload hk]

/-- The alpha product state as loaded from c1Cat. -/
def c1Loaded : ProductObj :=
  ⟨"alpha", "Alpha", "1.0", "", "", "", "", "", "", false, "", ""⟩

/-- Witness for the amended claim C1: empty prefix, failing product alpha,
one product after it. -/
theorem C1_amended_witness :
    runFull c1Check c1Fetch blankProduct
        ([] ++ ("alpha", true) :: [("beta", true)]) c1Cat c1Cat =
      ⟨Except.error CotsError.metadataUnavailable, c1Cat, [] ++ ["alpha"],
       [], false⟩ :=
  C1_amended c1Check c1Fetch blankProduct [] [("beta", true)] "alpha"
    c1Cat c1Cat c1Cat [] c1Loaded CotsError.metadataUnavailable
    rfl (by decide) (by decide)

/-- The rendered catalog file always starts with the generated header, so
it is never the empty string. -/
theorem renderCatalog_ne_empty (ts : String) (cat : Catalog) :
    renderCatalog ts cat ≠ "" := by
  intro h
  have hlen := congrArg String.length h
  have hpos : 0 <
      ("# ------------------------------------------------------------------------------\n").length := by
    decide
  simp only [renderCatalog, catalogHeader, String.length_append,
    String.length_empty] at hlen
  omega

/-- The prior on-disk catalog content of the C2 scenario. -/
def c2Old : String :=
  "[alpha]\nname = Alpha\n\n"

/-- The in-memory catalog written in the C2 scenario. -/
def c2Cat : Catalog := [("alpha", [(nameK, "Alpha"), (versionK, "1.1")])]

/-- Claim C2 counterexample: the write trace of _write_catalog contains the
empty file content (left by the truncating open of the catalog file itself,
mode w+t), and that intermediate on-disk state is neither the prior run
content nor the new complete content, so a crash between the open and the
completion of the writes leaves a catalog that is neither prior nor current
state. -/
theorem C2_counterexample :
    "" ∈ writeCatalogTrace "2016-01-01T00:00:00" c2Cat c2Old ∧
    "" ≠ c2Old ∧
    "" ≠ renderCatalog "2016-01-01T00:00:00" c2Cat := by
  refine ⟨?_, by decide, ?_⟩
  · simp [writeCatalogTrace]
  · exact fun h => renderCatalog_ne_empty "2016-01-01T00:00:00" c2Cat h.symm

/-- Claim C2 (amended): _write_catalog writes in place: the catalog file is
truncated by the opening itself and then filled by sequential writes, with
no temporary location or atomic replacement, so whenever the prior content
is nonempty the trace of on-disk states passes through the empty state,
which differs both from the prior content and from the new complete
content. -/
theorem C2_amended (ts old : String) (cat : Catalog) (hold : old ≠ "") :
    writeCatalogTrace ts cat old =
      old :: "" ::
        writeStates ""
          (catalogHeader ts :: cat.map (fun e => renderSection e.1 e.2)) ∧
    "" ∈ writeCatalogTrace ts cat old ∧
    "" ≠ old ∧
    "" ≠ renderCatalog ts cat := by
  refine ⟨rfl, by simp [writeCatalogTrace], fun h => hold h.symm, ?_⟩
  exact fun h => renderCatalog_ne_empty ts cat h.symm

/-- Witness for the amended claim C2 at a concrete prior content. -/
theorem C2_amended_witness :
    writeCatalogTrace "2016-01-01T00:00:00" c2Cat c2Old =
      c2Old :: "" ::
        writeStates ""
          (catalogHeader "2016-01-01T00:00:00" ::
            c2Cat.map (fun e => renderSection e.1 e.2)) ∧
    "" ∈ writeCatalogTrace "2016-01-01T00:00:00" c2Cat c2Old ∧
    "" ≠ c2Old ∧
    "" ≠ renderCatalog "2016-01-01T00:00:00" c2Cat :=
  C2_amended "2016-01-01T00:00:00" c2Old c2Cat (by decide)

end Lapptrack
